import Mathlib

/-
Verification of the codec-generator core of the go-xmlrpc repository
(`parameter.go`).

The Go source resolves a `go/types` shape into a tree of `Param` codec
nodes (`getParam`) and renders, per node, a decode fragment (`FromEtree`)
and an encode fragment (`ToEtree`) from fixed text templates.  We embed:

  * the `go/types` input as `GoType` / `BasicKind`,
  * the `Param` variants as one inductive with `Param.Name` / `Param.Type`,
  * `getParam` as an `Except`-valued resolver (the process-terminating
    `Exit` diagnostic becomes `Except.error`),
  * each template render as a Lean function producing the rendered text,
    threading the fresh-name counter,
  * the runtime effect of the emitted encode fragments as `encodeSem`,
    an element-tree builder mirroring the template statements.
-/

set_option maxRecDepth 400000

/-! ## Substring occurrence machinery -/

/-- Boolean check that the first character list starts the second. -/
def leadsWith : List Char → List Char → Bool
  | [], _ => true
  | _ :: _, [] => false
  | a :: as, b :: bs => a == b && leadsWith as bs

/-- Boolean check that the first character list occurs contiguously inside
the second. -/
def hasSeq : List Char → List Char → Bool
  | p, [] => leadsWith p []
  | p, c :: rest => leadsWith p (c :: rest) || hasSeq p rest

/-- Boolean substring occurrence on strings. -/
def occursB (p s : String) : Bool := hasSeq p.data s.data

/-- Propositional substring occurrence: `p` occurs contiguously in `s`. -/
def Occurs (p s : String) : Prop := ∃ l r : String, s = l ++ (p ++ r)

theorem leadsWith_iff (p s : List Char) :
    leadsWith p s = true ↔ ∃ r, s = p ++ r := by
  induction p generalizing s with
  | nil =>
    simp only [leadsWith, List.nil_append, true_iff]
    exact ⟨s, rfl⟩
  | cons a as ih =>
    cases s with
    | nil =>
      simp [leadsWith]
    | cons b bs =>
      simp only [leadsWith, Bool.and_eq_true, beq_iff_eq, ih, List.cons_append,
        List.cons.injEq]
      constructor
      · rintro ⟨h1, r, h2⟩
        exact ⟨r, h1.symm, h2⟩
      · rintro ⟨r, h1, h2⟩
        exact ⟨h1.symm, r, h2⟩

theorem hasSeq_iff (p s : List Char) :
    hasSeq p s = true ↔ ∃ l r, s = l ++ (p ++ r) := by
  induction s with
  | nil =>
    simp only [hasSeq, leadsWith_iff]
    constructor
    · rintro ⟨r, h⟩
      exact ⟨[], r, h⟩
    · rintro ⟨l, r, h⟩
      rcases List.append_eq_nil.mp h.symm with ⟨rfl, h2⟩
      exact ⟨r, h.symm ▸ rfl⟩
  | cons c rest ih =>
    simp only [hasSeq, Bool.or_eq_true, leadsWith_iff, ih]
    constructor
    · rintro (⟨r, h⟩ | ⟨l, r, h⟩)
      · exact ⟨[], r, by simpa using h⟩
      · exact ⟨c :: l, r, by simp [h]⟩
    · rintro ⟨l, r, h⟩
      cases l with
      | nil =>
        exact Or.inl ⟨r, by simpa using h⟩
      | cons x xs =>
        refine Or.inr ⟨xs, r, ?_⟩
        have := (List.cons.injEq c rest x (xs ++ (p ++ r))).mp (by simpa using h)
        exact this.2

theorem occurs_iff_occursB (p s : String) : Occurs p s ↔ occursB p s = true := by
  unfold Occurs occursB
  rw [hasSeq_iff]
  constructor
  · rintro ⟨l, r, rfl⟩
    exact ⟨l.data, r.data, by simp [String.data_append]⟩
  · rintro ⟨l, r, h⟩
    refine ⟨⟨l⟩, ⟨r⟩, ?_⟩
    apply String.ext
    simpa [String.data_append] using h

theorem occurs_here (l p r : String) : Occurs p (l ++ (p ++ r)) := ⟨l, r, rfl⟩

theorem occurs_left (p a b : String) : Occurs p a → Occurs p (a ++ b) := by
  rintro ⟨l, r, rfl⟩
  exact ⟨l, r ++ b, by simp [String.append_assoc]⟩

theorem occurs_right (p a b : String) : Occurs p b → Occurs p (a ++ b) := by
  rintro ⟨l, r, rfl⟩
  exact ⟨a ++ l, r, by simp [String.append_assoc]⟩

/-! ## The `go/types` input shapes

`getParam` receives a `*types.Var` (a declared name plus a type).  The type
switch in the source distinguishes `*types.Basic` (with a `Kind`),
`*types.Struct` (an ordered field list of vars), `*types.Array`,
`*types.Slice`, `*types.Named` (the source only consults its `String()`
rendering), and a default for everything else (modelled by `other`). -/

inductive BasicKind where
  | int | int8 | int16 | int32 | int64
  | uint | uint8 | uint16 | uint32 | uint64
  | bool | string | float64
deriving DecidableEq, Repr

/-- Go name of a basic kind, as `types.Basic.String()` renders it. -/
def BasicKind.goName : BasicKind → String
  | .int => "int" | .int8 => "int8" | .int16 => "int16"
  | .int32 => "int32" | .int64 => "int64"
  | .uint => "uint" | .uint8 => "uint8" | .uint16 => "uint16"
  | .uint32 => "uint32" | .uint64 => "uint64"
  | .bool => "bool" | .string => "string" | .float64 => "float64"

inductive GoType where
  | basic (k : BasicKind)
  | strukt (fields : List (String × GoType))
  | array (len : Nat) (elem : GoType)
  | slice (elem : GoType)
  | named (name : String)
  | other (desc : String)
deriving Repr

mutual
/-- Rendering of a Go type as `types.Type.String()` produces it (the source
uses it for `structParam.typ`, for the slice element type, and in the
`error` check and diagnostics). -/
def typeString : GoType → String
  | GoType.basic k => k.goName
  | GoType.strukt fields => "struct\x7b" ++ typeStringFields fields ++ "\x7d"
  | GoType.array len elem => "[" ++ toString len ++ "]" ++ typeString elem
  | GoType.slice elem => "[]" ++ typeString elem
  | GoType.named name => name
  | GoType.other desc => desc

def typeStringFields : List (String × GoType) → String
  | [] => ""
  | [(fname, ftype)] => fname ++ " " ++ typeString ftype
  | (fname, ftype) :: rest =>
      fname ++ " " ++ typeString ftype ++ "; " ++ typeStringFields rest
end

/-! ## The `Param` codec nodes

One constructor per Go implementation struct: `boolParam`, `intParam`,
`stringParam`, `structParam`, `sliceParam`, `errorParam`, carrying exactly
the fields the Go structs carry (dropping only fields that are never
read: `intParam.typ`). -/

inductive Param where
  | boolP (name : String)
  | intP (name : String) (bitSize : Nat) (unsigned : Bool)
  | stringP (name : String)
  | structP (name : String) (typ : String) (params : List Param)
  | sliceP (name : String) (typ : String) (object : Param)
  | errorP (name : String) (typ : String)
deriving Repr

/-- The `Name()` method of each variant: all return the stored name. -/
def Param.Name : Param → String
  | .boolP name => name
  | .intP name _ _ => name
  | .stringP name => name
  | .structP name _ _ => name
  | .sliceP name _ _ => name
  | .errorP name _ => name

/-- The `Type()` method of each variant.  `intParam.Type` builds
`int`/`uint` and appends the bit size only when it is positive;
`sliceParam.Type` prepends `[]` to the stored element type string. -/
def Param.Type : Param → String
  | .boolP _ => "bool"
  | .intP _ bitSize unsigned =>
      let result := "int"
      let result := if unsigned then "u" ++ result else result
      if bitSize > 0 then result ++ toString bitSize else result
  | .stringP _ => "string"
  | .structP _ typ _ => typ
  | .sliceP _ typ _ => "[]" ++ typ
  | .errorP _ typ => typ

/-- Constructor `newBoolParam`. -/
def newBoolParam (name : String) : Param := Param.boolP name

/-- Constructor `newIntParam`. -/
def newIntParam (name : String) (bitSize : Nat) (unsigned : Bool) : Param :=
  Param.intP name bitSize unsigned

/-- Constructor `newStringParam`. -/
def newStringParam (name : String) : Param := Param.stringP name

/-- Constructor `newSliceParam`: stores the slice's declared name, the
element type string, and the element codec. -/
def newSliceParam (name : String) (typ : String) (obj : Param) : Param :=
  Param.sliceP name typ obj

/-- Constructor `newErrorParam`: stores the given name and the fixed type
string `error`. -/
def newErrorParam (name : String) : Param := Param.errorP name "error"

/-- Modelled from the spec: `Exit` lives outside `src/` (only its call
sites are in `parameter.go`); per the spec an unsupported shape "fails
fatally (process-terminating diagnostic, not a recoverable error)".  We
model the fatal diagnostic as an `Except.error` carrying the formatted
message, which makes every code path after an `Exit` call unreachable,
exactly as process termination does. -/
def Exit (msg : String) : Except String Param := Except.error msg

mutual
/-- The shape resolver `getParam`.  The `*types.Struct` arm inlines
`newStructParam` (which resolves every field in declaration order); the
`*types.Slice` arm rebuilds a var with the slice's own name for the
element, as the source does with `types.NewVar`; the `*types.Named` arm
recognizes the `error` sentinel by its `String()` rendering and discards
the declared name in favour of the fixed name `err`.  Unsupported basic
kinds and the default arm fall through to the final
`Exit("not supported param: %v")`. -/
def getParam : String → GoType → Except String Param
  | name, GoType.basic k =>
    match k with
    | BasicKind.int => Except.ok (newIntParam name 0 false)
    | BasicKind.int8 => Except.ok (newIntParam name 8 false)
    | BasicKind.int16 => Except.ok (newIntParam name 16 false)
    | BasicKind.int32 => Except.ok (newIntParam name 32 false)
    | BasicKind.int64 => Except.ok (newIntParam name 64 false)
    | BasicKind.string => Except.ok (newStringParam name)
    | BasicKind.bool => Except.ok (newBoolParam name)
    | _ => Exit ("not supported param: " ++ typeString (GoType.basic k))
  | name, GoType.strukt fields => do
    let ps ← getParamFields fields
    Except.ok (Param.structP name (typeString (GoType.strukt fields)) ps)
  | _, GoType.array _ _ => Exit "array"
  | name, GoType.slice elem => do
    let sliceElemParam ← getParam name elem
    Except.ok (newSliceParam name (typeString elem) sliceElemParam)
  | _, GoType.named tn =>
    if typeString (GoType.named tn) == "error" then
      Except.ok (newErrorParam "err")
    else
      Exit "No support for named parameters. use inline definitions."
  | _, GoType.other desc => Exit ("not supported param: " ++ desc)

/-- Field loop of `newStructParam`: resolve each field, in declaration
order. -/
def getParamFields : List (String × GoType) → Except String (List Param)
  | [] => Except.ok []
  | (fname, ftype) :: rest => do
    let p ← getParam fname ftype
    let ps ← getParamFields rest
    Except.ok (p :: ps)
end

/-! ## Template rendering

`RenderTemplateInto` and `GenerateVariableName` live outside `src/`; the
spec describes them as an opaque `render(template, bindings) → text`
capability and a process-wide counter-backed fresh-name generator.  Each
render function below reproduces its Go template text literally, with the
bindings substituted and the counter threaded in the order the template
and the Go map literal evaluate them. -/

/-- Modelled from the spec: the Unique Name Allocator is a "process-wide
counter-backed generator of fresh identifier strings".  We thread the
counter explicitly: each call returns `hint_<counter>` and bumps the
counter. -/
def GenerateVariableName (hint : String) (n : Nat) : String × Nat :=
  (hint ++ "_" ++ toString n, n + 1)

/-- The `intParam.getParseFunc` method (constant). -/
def getParseFunc : String := "XPathValueGetInt"

mutual
/-- The `FromEtree` decode-fragment render of each variant, producing the
template text with bindings substituted.  `errorParam.FromEtree` returns
the empty string.  The `structParam` template queries
`FindElements("struct/members")`, exits its member-shape failure paths
via `return errors.New(...)`, and passes the hardcoded name `err` (not
the supplied error variable, which it never reads) to each field's
decode; the `sliceParam` template declares the result as
`[]` + `sliceParam.Type()` (which itself already starts with `[]`). -/
def FromEtree : Param → String → String → String → Nat → String × Nat
  | Param.boolP name, element, resultvar, errvar, n =>
    ("\n\tvar " ++ resultvar ++ " " ++ Param.Type (Param.boolP name) ++
     "\n\tif " ++ resultvar ++ ", " ++ errvar ++ " = xmlrpc.XPathValueGetBool(" ++
     element ++ ", \"" ++ name ++ "\"); " ++ errvar ++
     " != nil \x7b\n\t\treturn\n\t\x7d" ++ "\n\t", n)
  | Param.intP name bitSize unsigned, element, resultvar, errvar, n =>
    ("\n\tvar " ++ resultvar ++ " " ++ Param.Type (Param.intP name bitSize unsigned) ++
     "\n\tif " ++ resultvar ++ ", " ++ errvar ++ " = xmlrpc." ++ getParseFunc ++ "(" ++
     element ++ ", \"" ++ name ++ "\"); " ++ errvar ++
     " != nil \x7b\n\t\treturn\n\t\x7d", n)
  | Param.stringP name, element, resultvar, errvar, n =>
    ("\n\tvar " ++ resultvar ++ " " ++ Param.Type (Param.stringP name) ++
     "\n\tif " ++ resultvar ++ ", " ++ errvar ++ " = xmlrpc.XPathValueGetString(" ++
     element ++ ", \"" ++ name ++ "\"); " ++ errvar ++
     " != nil \x7b\n\t\treturn\n\t\x7d" ++ "\n\t", n)
  | Param.structP _ typ params, element, resultvar, _, n =>
    let temp := (GenerateVariableName "name_elem" n).1
    let n := (GenerateVariableName "name_elem" n).2
    let nameVar := (GenerateVariableName "name" n).1
    let n := (GenerateVariableName "name" n).2
    let valueVar := (GenerateVariableName "value" n).1
    let n := (GenerateVariableName "value" n).2
    let cases := (fromEtreeCases params valueVar resultvar n).1
    let n := (fromEtreeCases params valueVar resultvar n).2
    ("\n\t// rendering struct\n\t" ++ resultvar ++ " := " ++ typ ++
     "\x7b\x7d\n\n\t" ++ "\n\t" ++ "\n\t" ++
     "\n\n\t// Lets iterate over given members.\n\t// @TODO: we should check first \"struct\" if not provided it\x27s probably error\n\tfor _, member := range " ++
     element ++ ".FindElements(\"struct/members\") \x7b\n\t\tvar " ++
     temp ++ " *etree.Element\n\t\tif " ++ temp ++
     " = member.FindElement(\"name\"); " ++ temp ++ " == nil \x7b\n\t\t\t" ++
     "return errors.New(\"no name provided\")" ++
     "\n\t\t\x7d\n\n\t\t" ++ nameVar ++ " := " ++ temp ++
     ".Text()\n\n\t\tvar " ++ valueVar ++ " *etree.Element\n\t\tif " ++
     valueVar ++ " = member.FindElement(\"value\"); " ++ valueVar ++
     " == nil \x7b\n\t\t\t" ++
     "return errors.New(\"no name provided\")" ++
     "\n\t\t\x7d\n\n\t\t// switch over param names (over all params)\n\t\tswitch " ++
     nameVar ++ " \x7b\n\t\t\t" ++ cases ++ "\n\t\t\x7d\n\t\x7d\n\t", n)
  | Param.sliceP name typ object, element, resultvar, errvar, n =>
    let memberVar := (GenerateVariableName "member" n).1
    let n := (GenerateVariableName "member" n).2
    let targetName := (GenerateVariableName "value" n).1
    let n := (GenerateVariableName "value" n).2
    let childFrag := (FromEtree object memberVar targetName errvar n).1
    let n := (FromEtree object memberVar targetName errvar n).2
    ("\n\t// This is slice implementation of " ++ resultvar ++ "\n\t" ++
     resultvar ++ " := []" ++ Param.Type (Param.sliceP name typ object) ++
     "\x7b\x7d\n\n\t" ++
     "\n\n\t// Lets iterate over given members.\n\tfor _, " ++ memberVar ++
     " := range " ++ element ++ ".FindElements(\"array/data/value\") \x7b\n\t\t" ++
     "\n\t\t" ++ childFrag ++ "\n\t\t" ++ resultvar ++ " = append(" ++
     resultvar ++ ", " ++ targetName ++ ")\n\t\x7d\n\t", n)
  | Param.errorP _ _, _, _, _, n => ("", n)

/-- The `{{range $index,$param := .Params}}` body of the `structParam`
decode template: one `case` per child, decoding into a fresh temporary
with the hardcoded error variable `err`, then assigning the temporary to
the corresponding field of the result. -/
def fromEtreeCases : List Param → String → String → Nat → String × Nat
  | [], _, _, n => ("", n)
  | p :: ps, valueVar, resultvar, n =>
    let paramTmp := (GenerateVariableName "" n).1
    let n := (GenerateVariableName "" n).2
    let childFrag := (FromEtree p valueVar paramTmp "err" n).1
    let n := (FromEtree p valueVar paramTmp "err" n).2
    let rest := (fromEtreeCases ps valueVar resultvar n).1
    let n := (fromEtreeCases ps valueVar resultvar n).2
    ("\n\t\t\t\tcase \"" ++ Param.Name p ++ "\": " ++ "\n\t\t\t\t" ++
     "\n\t\t\t\t" ++ childFrag ++
     "\n\n\t\t\t\t// Assign to variable (for pointer support we can provide it here\n\t\t\t\t" ++
     resultvar ++ "." ++ Param.Name p ++ " = " ++ paramTmp ++ rest, n)
end

mutual
/-- The `ToEtree` encode-fragment render of each variant, producing the
template text with bindings substituted and the fresh-name counter
threaded in Go evaluation order (map-literal entries first, in-template
allocations during the render). -/
def ToEtree : Param → String → String → String → Nat → String × Nat
  | Param.boolP _, element, resultvar, _, n =>
    let temp := (GenerateVariableName "boolstr" n).1
    let n := (GenerateVariableName "boolstr" n).2
    ("\n\t\t" ++ temp ++ " := \"0\"\n\t\tif " ++ resultvar ++
     " \x7b\n\t\t\t" ++ temp ++ " = \"1\"\n\t\t\x7d\n\t\t" ++ element ++
     ".CreateElement(\"boolean\").SetText(" ++ temp ++ ")", n)
  | Param.intP _ _ _, element, resultvar, _, n =>
    (element ++ ".CreateElement(\"int\").SetText(strconv.Itoa(int(" ++
     resultvar ++ ")))", n)
  | Param.stringP _, element, resultvar, _, n =>
    let n := (GenerateVariableName "" n).2
    (element ++ ".CreateElement(\"string\").SetText(" ++ resultvar ++ ")", n)
  | Param.structP _ _ params, element, resultvar, errvar, n =>
    let structVar := (GenerateVariableName "struct" n).1
    let n := (GenerateVariableName "struct" n).2
    let membersText := (toEtreeMembers params structVar resultvar errvar n).1
    let n := (toEtreeMembers params structVar resultvar errvar n).2
    ("\n\t\t" ++ structVar ++ " := " ++ element ++
     ".CreateElement(\"struct\")\n\t\t// iterate over struct members\n\t\t" ++
     membersText ++ "\n\t", n)
  | Param.sliceP _ _ object, element, resultvar, errvar, n =>
    let temp := (GenerateVariableName "array_data" n).1
    let n := (GenerateVariableName "array_data" n).2
    let tempItem := (GenerateVariableName "item" n).1
    let n := (GenerateVariableName "item" n).2
    let tempValueVar := (GenerateVariableName "value" n).1
    let n := (GenerateVariableName "value" n).2
    let childFrag := (ToEtree object tempValueVar tempItem errvar n).1
    let n := (ToEtree object tempValueVar tempItem errvar n).2
    (temp ++ " := " ++ element ++
     ".CreateElement(\"array\").CreateElement(\"data\")\n\t\tfor _, " ++
     tempItem ++ " := range " ++ resultvar ++ " \x7b\n\t\t\t" ++
     tempValueVar ++ " := " ++ temp ++ ".CreateElement(\"value\")\n\t\t\t" ++
     childFrag ++ "\n\t\t\x7d\n\t", n)
  | Param.errorP _ _, element, resultvar, _, n =>
    let castVar := (GenerateVariableName "code" n).1
    let n := (GenerateVariableName "code" n).2
    let structVar := (GenerateVariableName "struct" n).1
    let n := (GenerateVariableName "struct" n).2
    let okVar := (GenerateVariableName "ok" n).1
    let n := (GenerateVariableName "ok" n).2
    let errorCode := (GenerateVariableName "code" n).1
    let n := (GenerateVariableName "code" n).2
    let fault := (GenerateVariableName "fault" n).1
    let n := (GenerateVariableName "fault" n).2
    let member1 := (GenerateVariableName "member" n).1
    let n := (GenerateVariableName "member" n).2
    let member2 := (GenerateVariableName "member" n).1
    let n := (GenerateVariableName "member" n).2
    ("\n\n\t\t// move this code to error.\n\t\t" ++ fault ++ " := " ++
     element ++ ".CreateElement(\"fault\")\n\n\t\t" ++ errorCode ++
     " := 500\n\n\t\t// Try to cast error to xmlrpc.Error (with code added)\n\t\tif " ++
     castVar ++ ", " ++ okVar ++ " := " ++ resultvar ++
     ".(xmlrpc.Error); " ++ okVar ++ " \x7b\n\t\t\t" ++ errorCode ++
     " = " ++ castVar ++ ".Code()\n\t\t\x7d\n\n\t\t" ++ structVar ++
     " := " ++ fault ++
     ".CreateElement(\"value\").CreateElement(\"struct\")\n\n\t\t" ++
     "\n\t\t" ++ member1 ++ " := " ++ structVar ++
     ".CreateElement(\"member\")\n\t\t" ++ member1 ++
     ".CreateElement(\"name\").SetText(\"faultCode\")\n\t\t" ++ member1 ++
     ".CreateElement(\"value\").CreateElement(\"int\").SetText(strconv.Itoa(" ++
     errorCode ++ "))\n\n\t\t" ++
     "\n\t\t" ++ member2 ++ " := " ++ structVar ++
     ".CreateElement(\"member\")\n\t\t" ++ member2 ++
     ".CreateElement(\"name\").SetText(\"faultString\")\n\t\t" ++ member2 ++
     ".CreateElement(\"value\").CreateElement(\"string\").SetText( " ++
     resultvar ++ ".Error())\n\n\t", n)

/-- The `{{range .Params}}` body of the `structParam` encode template:
per child (in order), a `member` element under the struct element, a
`name` element carrying the child's own name, a `value` element, a
shortcut variable for the struct field, and the child's own encode
fragment spliced in. -/
def toEtreeMembers : List Param → String → String → String → Nat → String × Nat
  | [], _, _, _, n => ("", n)
  | p :: ps, structVar, resultvar, errvar, n =>
    let memberVar := (GenerateVariableName "member" n).1
    let n := (GenerateVariableName "member" n).2
    let tempValueVar := (GenerateVariableName "value" n).1
    let n := (GenerateVariableName "value" n).2
    let structItemVar := (GenerateVariableName "struct_var" n).1
    let n := (GenerateVariableName "struct_var" n).2
    let childFrag := (ToEtree p tempValueVar structItemVar errvar n).1
    let n := (ToEtree p tempValueVar structItemVar errvar n).2
    let rest := (toEtreeMembers ps structVar resultvar errvar n).1
    let n := (toEtreeMembers ps structVar resultvar errvar n).2
    ("\n\t\t\t" ++ "\n\t\t\t" ++ memberVar ++ " := " ++ structVar ++
     ".CreateElement(\"member\")\n\n\t\t\t// first create \"name\" xml element with member name\n\t\t\t" ++
     memberVar ++ ".CreateElement(\"name\").SetText(\"" ++ Param.Name p ++
     "\")\n\n\t\t\t" ++ "\n\t\t\t" ++ tempValueVar ++ " := " ++ memberVar ++
     ".CreateElement(\"value\")\n\n\t\t\t// make shortcut to struct member " ++
     "\n\t\t\t" ++ structItemVar ++ " := " ++ resultvar ++ "." ++
     Param.Name p ++ "\n\n\t\t\t// set value\n\t\t\t" ++ childFrag ++
     "\n\t\t" ++ rest, n)
end

/-! ## Runtime effect of the emitted encode fragments

The encode templates are straight-line element-tree builders over the
`etree` library (`CreateElement`, `SetText`) plus, for slices, a loop
over the value and, for structs, one block per child.  `encodeSem`
gives the wire tree that the emitted fragment builds when the generated
code runs on a value, mirroring the template statements one by one. -/

/-- A wire-document element: tag, text content, ordered children. -/
inductive Etree where
  | elem (tag : String) (text : String) (children : List Etree)
deriving Repr

/-- Runtime Go values the generated encode code can receive: one
constructor per codec variant.  An error value carries its `Error()`
description and, when the `xmlrpc.Error` cast succeeds, its `Code()`. -/
inductive GoValue where
  | boolV (b : Bool)
  | intV (i : Int)
  | stringV (s : String)
  | structV (fields : List (String × GoValue))
  | sliceV (elems : List GoValue)
  | errorV (msg : String) (code : Option Int)
deriving Repr

/-- Field access `resultvar.Name` performed by the generated struct
encode code, modelled as lookup by field name (generated code is only
ever run on a value of the struct's own type, where the field exists). -/
def lookupField (fields : List (String × GoValue)) (fname : String) : GoValue :=
  match fields.find? (fun f => f.1 == fname) with
  | some f => f.2
  | none => GoValue.structV []

mutual
/-- Children appended to the target element when the `ToEtree` fragment
of a node runs on a value.  Each arm mirrors its template: bool renders
`"0"`, overwritten by `"1"` when the value is true, under a `boolean`
tag; int renders `strconv.Itoa` text under an `int` tag; string renders
the raw text under a `string` tag; struct renders a `struct` element
with one `member` (a `name` text element plus a `value` element holding
the recursively encoded field) per child in order; slice renders
`array`/`data` with one `value` element per item in order; error renders
the `fault` envelope with `faultCode` (500 unless the cast supplies a
code) and `faultString` members.  A value of the wrong shape for the
node cannot arise in the typed generated code and yields no elements. -/
def encodeSem : Param → GoValue → List Etree
  | Param.boolP _, v =>
    match v with
    | GoValue.boolV b =>
      let temp := "0"
      let temp := if b then "1" else temp
      [Etree.elem "boolean" temp []]
    | _ => []
  | Param.intP _ _ _, v =>
    match v with
    | GoValue.intV i => [Etree.elem "int" (toString i) []]
    | _ => []
  | Param.stringP _, v =>
    match v with
    | GoValue.stringV s => [Etree.elem "string" s []]
    | _ => []
  | Param.structP _ _ params, v =>
    match v with
    | GoValue.structV fields => [Etree.elem "struct" "" (encodeMembers params fields)]
    | _ => []
  | Param.sliceP _ _ object, v =>
    match v with
    | GoValue.sliceV elems =>
      [Etree.elem "array" "" [Etree.elem "data" "" (encodeItems object elems)]]
    | _ => []
  | Param.errorP _ _, v =>
    match v with
    | GoValue.errorV msg code? =>
      let code : Int := 500
      let code := match code? with
        | some c => c
        | none => code
      [Etree.elem "fault" "" [Etree.elem "value" "" [Etree.elem "struct" ""
        [Etree.elem "member" "" [Etree.elem "name" "faultCode" [],
           Etree.elem "value" "" [Etree.elem "int" (toString code) []]],
         Etree.elem "member" "" [Etree.elem "name" "faultString" [],
           Etree.elem "value" "" [Etree.elem "string" msg []]]]]]]
    | _ => []

/-- The member blocks of the struct encode template, one per child in
order: a `member` element holding the `name` text element and a `value`
element with the child's encoding of the corresponding field. -/
def encodeMembers : List Param → List (String × GoValue) → List Etree
  | [], _ => []
  | p :: ps, fields =>
    Etree.elem "member" ""
        [Etree.elem "name" (Param.Name p) [],
         Etree.elem "value" "" (encodeSem p (lookupField fields (Param.Name p)))]
      :: encodeMembers ps fields

/-- The loop of the slice encode template: one `value` element per item,
in order, each holding the element codec's encoding of that item. -/
def encodeItems : Param → List GoValue → List Etree
  | _, [] => []
  | object, v :: vs =>
    Etree.elem "value" "" (encodeSem object v) :: encodeItems object vs
end

/-! ## Helper lemmas for the claim proofs -/

theorem occurs_self (p : String) : Occurs p p :=
  ⟨"", "", by simp⟩

theorem occurs_tail2 (x a b : String) : Occurs (a ++ b) ((x ++ a) ++ b) :=
  ⟨x, "", by simp [String.append_assoc]⟩

/-- Every field list resolved by `getParamFields` resolves pointwise, in
order. -/
theorem getParamFields_forall (fields : List (String × GoType))
    (ps : List Param) (h : getParamFields fields = Except.ok ps) :
    List.Forall₂ (fun f q => getParam f.1 f.2 = Except.ok q) fields ps := by
  induction fields generalizing ps with
  | nil =>
    have h2 : (Except.ok [] : Except String (List Param)) = Except.ok ps := h
    injection h2 with h3
    subst h3
    exact List.Forall₂.nil
  | cons f rest ih =>
    obtain ⟨fname, ftype⟩ := f
    have h2 : Except.bind (getParam fname ftype) (fun p =>
        Except.bind (getParamFields rest) (fun ps2 =>
          Except.ok (p :: ps2))) = Except.ok ps := h
    cases hp : getParam fname ftype with
    | error e =>
      rw [hp] at h2
      exact absurd
        (show (Except.error e : Except String (List Param)) = Except.ok ps from h2)
        (by simp)
    | ok p =>
      rw [hp] at h2
      cases hps : getParamFields rest with
      | error e =>
        rw [hps] at h2
        exact absurd
          (show (Except.error e : Except String (List Param)) = Except.ok ps from h2)
          (by simp)
      | ok ps2 =>
        rw [hps] at h2
        have h3 : Except.ok (p :: ps2) = Except.ok ps := h2
        injection h3 with h4
        subst h4
        exact List.Forall₂.cons hp (ih ps2 hps)

/-- `encodeMembers` is the ordered map over the children. -/
theorem encodeMembers_eq_map (ps : List Param) (fields : List (String × GoValue)) :
    encodeMembers ps fields = ps.map (fun q =>
      Etree.elem "member" ""
        [Etree.elem "name" (Param.Name q) [],
         Etree.elem "value" "" (encodeSem q (lookupField fields (Param.Name q)))]) := by
  induction ps with
  | nil => rw [encodeMembers]; rfl
  | cons p ps ih => rw [encodeMembers, ih]; rfl

/-- Rendered shape of the `boolParam` decode fragment. -/
theorem boolFromEtree_eq (name element resultvar errvar : String) (n : Nat) :
    (FromEtree (Param.boolP name) element resultvar errvar n).1 =
      "\n\tvar " ++ resultvar ++ " " ++ Param.Type (Param.boolP name) ++
      "\n\tif " ++ resultvar ++ ", " ++ errvar ++ " = xmlrpc.XPathValueGetBool(" ++
      element ++ ", \"" ++ name ++ "\"); " ++ errvar ++
      " != nil \x7b\n\t\treturn\n\t\x7d" ++ "\n\t" := rfl

/-- Rendered shape of the `structParam` decode fragment, with the
allocator-produced identifiers and the rendered member cases abstracted. -/
theorem structFromEtree_shape (name typ : String) (params : List Param)
    (element resultvar errvar : String) (n : Nat) :
    ∃ temp nameVar valueVar cases : String,
      (FromEtree (Param.structP name typ params) element resultvar errvar n).1 =
        "\n\t// rendering struct\n\t" ++ resultvar ++ " := " ++ typ ++
        "\x7b\x7d\n\n\t" ++ "\n\t" ++ "\n\t" ++
        "\n\n\t// Lets iterate over given members.\n\t// @TODO: we should check first \"struct\" if not provided it\x27s probably error\n\tfor _, member := range " ++
        element ++ ".FindElements(\"struct/members\") \x7b\n\t\tvar " ++
        temp ++ " *etree.Element\n\t\tif " ++ temp ++
        " = member.FindElement(\"name\"); " ++ temp ++ " == nil \x7b\n\t\t\t" ++
        "return errors.New(\"no name provided\")" ++
        "\n\t\t\x7d\n\n\t\t" ++ nameVar ++ " := " ++ temp ++
        ".Text()\n\n\t\tvar " ++ valueVar ++ " *etree.Element\n\t\tif " ++
        valueVar ++ " = member.FindElement(\"value\"); " ++ valueVar ++
        " == nil \x7b\n\t\t\t" ++
        "return errors.New(\"no name provided\")" ++
        "\n\t\t\x7d\n\n\t\t// switch over param names (over all params)\n\t\tswitch " ++
        nameVar ++ " \x7b\n\t\t\t" ++ cases ++ "\n\t\t\x7d\n\t\x7d\n\t" :=
  ⟨_, _, _, _, rfl⟩

/-! ## The claims -/

/-- C1: the claim says the list decode fragment declares the result as an
empty sequence whose declared type is `[]` followed by the element type
exactly once.  The code does not: `sliceParam.Type()` already yields
`[]int` for a slice of `int`, and the decode template prepends another
`[]`, so the fragment resolved from `[]int` (declared name `xs`) declares
`xs := [][]int{}` and never `xs := []int{}` — even though the same
fragment appends plain `int` values to `xs`, so the emitted code cannot
compile.  This theorem evaluates the embedded code at that failing
input. -/
theorem sliceParam_decode_type_doubled :
    getParam "xs" (GoType.slice (GoType.basic BasicKind.int)) =
      Except.ok (Param.sliceP "xs" "int" (Param.intP "xs" 0 false)) ∧
    Param.Type (Param.sliceP "xs" "int" (Param.intP "xs" 0 false)) = "[]int" ∧
    occursB "xs := [][]int\x7b\x7d"
      ((FromEtree (Param.sliceP "xs" "int" (Param.intP "xs" 0 false)) "el" "xs" "err" 0).1) = true ∧
    occursB "xs := []int\x7b\x7d"
      ((FromEtree (Param.sliceP "xs" "int" (Param.intP "xs" 0 false)) "el" "xs" "err" 0).1) = false :=
  ⟨rfl, rfl, by decide, by decide⟩

/-- C2: the claim says the struct decode fragment iterates the wire
member list with the same bit-exact `member` tag the struct encode
fragment creates.  The code does not: for the struct shape
`struct{a int}` the decode fragment queries the path `struct/members`
while the encode fragment creates elements tagged `member` (and never
`members`) under `struct`, so members written by the encode fragment are
not found by the decode query.  This theorem evaluates both fragments at
that failing input. -/
theorem structParam_member_tag_mismatch :
    occursB "FindElements(\"struct/members\")"
      ((FromEtree (Param.structP "s" "struct\x7ba int\x7d" [Param.intP "a" 0 false]) "el" "res" "err" 0).1) = true ∧
    occursB "CreateElement(\"member\")"
      ((ToEtree (Param.structP "s" "struct\x7ba int\x7d" [Param.intP "a" 0 false]) "el" "res" "err" 0).1) = true ∧
    occursB "CreateElement(\"members\")"
      ((ToEtree (Param.structP "s" "struct\x7ba int\x7d" [Param.intP "a" 0 false]) "el" "res" "err" 0).1) = false :=
  ⟨by decide, by decide, by decide⟩

/-- C3 counterexample: the claim that every failure path of every decode
fragment assigns the supplied error variable and exits with a bare
return fails for the struct variant.  At the concrete input (struct
shape `struct{b bool}`, sourceRef `el`, resultVarName `res`,
errorVarName `myErr`) the emitted fragment never mentions `myErr` at
all, exits its member-shape failure paths via
`return errors.New("no name provided")` (a return carrying a value, not
a bare return), and wires the hardcoded name `err` into the field
decode. -/
theorem structParam_decode_convention_cex :
    ¬ Occurs "myErr"
        ((FromEtree (Param.structP "s" "struct\x7bb bool\x7d" [Param.boolP "b"]) "el" "res" "myErr" 0).1) ∧
    Occurs "return errors.New(\"no name provided\")"
        ((FromEtree (Param.structP "s" "struct\x7bb bool\x7d" [Param.boolP "b"]) "el" "res" "myErr" 0).1) ∧
    Occurs ", err = xmlrpc.XPathValueGetBool"
        ((FromEtree (Param.structP "s" "struct\x7bb bool\x7d" [Param.boolP "b"]) "el" "res" "myErr" 0).1) :=
  ⟨fun hc => absurd ((occurs_iff_occursB _ _).mp hc) (by decide),
    (occurs_iff_occursB _ _).mpr (by decide),
    (occurs_iff_occursB _ _).mpr (by decide)⟩

/-- C3 amended: the bool, int and string decode fragments follow the
convention — they test the supplied error variable and exit the
enclosing generated function with a bare return.  The struct decode
fragment does not: it ignores the supplied errorVarName entirely (its
render does not depend on it; field decodes hardcode `err`), and its
missing name/value failure paths exit via `return errors.New(...)`,
a return carrying a freshly constructed error value. -/
theorem decode_error_convention_amended :
    (∀ (name element resultvar errvar : String) (n : Nat),
      Occurs (errvar ++ " != nil \x7b\n\t\treturn\n\t\x7d")
        ((FromEtree (Param.boolP name) element resultvar errvar n).1)) ∧
    (∀ (name element resultvar errvar : String) (bitSize : Nat) (unsigned : Bool) (n : Nat),
      Occurs (errvar ++ " != nil \x7b\n\t\treturn\n\t\x7d")
        ((FromEtree (Param.intP name bitSize unsigned) element resultvar errvar n).1)) ∧
    (∀ (name element resultvar errvar : String) (n : Nat),
      Occurs (errvar ++ " != nil \x7b\n\t\treturn\n\t\x7d")
        ((FromEtree (Param.stringP name) element resultvar errvar n).1)) ∧
    (∀ (name typ : String) (params : List Param) (element resultvar ev1 ev2 : String) (n : Nat),
      FromEtree (Param.structP name typ params) element resultvar ev1 n =
        FromEtree (Param.structP name typ params) element resultvar ev2 n) ∧
    (∀ (name typ : String) (params : List Param) (element resultvar errvar : String) (n : Nat),
      Occurs "return errors.New(\"no name provided\")"
        ((FromEtree (Param.structP name typ params) element resultvar errvar n).1)) := by
  refine ⟨?_, ?_, ?_, ?_, ?_⟩
  · intro name element resultvar errvar n
    rw [boolFromEtree_eq]
    exact occurs_left _ _ _ (occurs_tail2 _ _ _)
  · intro name element resultvar errvar bitSize unsigned n
    exact occurs_tail2 _ _ _
  · intro name element resultvar errvar n
    exact occurs_left _ _ _ (occurs_tail2 _ _ _)
  · intro name typ params element resultvar ev1 ev2 n
    rfl
  · intro name typ params element resultvar errvar n
    obtain ⟨temp, nameVar, valueVar, cases, heq⟩ :=
      structFromEtree_shape name typ params element resultvar errvar n
    rw [heq]
    iterate 17 apply occurs_left
    exact occurs_right _ _ _ (occurs_self _)

/-- C4: the claim (and the spec's supported set) covers unsigned integer
shapes, asserting that resolving them yields a leaf labeled `uint`
suffixed with the nonzero bit width.  The code does not: `getParam`'s
basic-kind switch has arms only for the signed kinds, so every unsigned
kind falls through to the fatal `Exit("not supported param: ...")` and
no node is ever built — the first conjunct evaluates the resolver at
those failing inputs.  The remaining conjuncts show the supported
(signed) side behaves as claimed, and that `intParam.Type` implements
the claimed `int`/`uint` label rule (suffix exactly when the width is
nonzero) for both flags, though the resolver only ever constructs nodes
with `unsigned = false`, leaving the `uint` labels unreachable. -/
theorem getParam_uint_unsupported :
    (∀ nm : String,
      getParam nm (GoType.basic BasicKind.uint) = Except.error "not supported param: uint" ∧
      getParam nm (GoType.basic BasicKind.uint8) = Except.error "not supported param: uint8" ∧
      getParam nm (GoType.basic BasicKind.uint16) = Except.error "not supported param: uint16" ∧
      getParam nm (GoType.basic BasicKind.uint32) = Except.error "not supported param: uint32" ∧
      getParam nm (GoType.basic BasicKind.uint64) = Except.error "not supported param: uint64") ∧
    (∀ nm : String,
      getParam nm (GoType.basic BasicKind.int) = Except.ok (Param.intP nm 0 false) ∧
      getParam nm (GoType.basic BasicKind.int8) = Except.ok (Param.intP nm 8 false) ∧
      getParam nm (GoType.basic BasicKind.int16) = Except.ok (Param.intP nm 16 false) ∧
      getParam nm (GoType.basic BasicKind.int32) = Except.ok (Param.intP nm 32 false) ∧
      getParam nm (GoType.basic BasicKind.int64) = Except.ok (Param.intP nm 64 false)) ∧
    (∀ (nm : String) (u : Bool),
      Param.Type (Param.intP nm 0 u) = (if u then "uint" else "int") ∧
      Param.Type (Param.intP nm 8 u) = (if u then "uint" else "int") ++ "8" ∧
      Param.Type (Param.intP nm 16 u) = (if u then "uint" else "int") ++ "16" ∧
      Param.Type (Param.intP nm 32 u) = (if u then "uint" else "int") ++ "32" ∧
      Param.Type (Param.intP nm 64 u) = (if u then "uint" else "int") ++ "64") := by
  refine ⟨fun nm => ⟨rfl, rfl, rfl, rfl, rfl⟩, fun nm => ⟨rfl, rfl, rfl, rfl, rfl⟩,
    fun nm u => ?_⟩
  cases u <;> exact ⟨rfl, rfl, rfl, rfl, rfl⟩

/-- C5: for every failure value, the emitted encode fragment builds a
`fault` wire element whose struct holds exactly two members, in the
order `faultCode` then `faultString`, where `faultCode` is 500 unless
the runtime value exposes the `xmlrpc.Error` code capability (in which
case that code is used) and `faultString` is the value's `Error()`
description. -/
theorem errorParam_encode_fault (nm t msg : String) (code? : Option Int) :
    encodeSem (Param.errorP nm t) (GoValue.errorV msg code?) =
      [Etree.elem "fault" "" [Etree.elem "value" "" [Etree.elem "struct" ""
        [Etree.elem "member" "" [Etree.elem "name" "faultCode" [],
           Etree.elem "value" "" [Etree.elem "int" (toString (code?.getD 500)) []]],
         Etree.elem "member" "" [Etree.elem "name" "faultString" [],
           Etree.elem "value" "" [Etree.elem "string" msg []]]]]]] := by
  cases code? <;> simp [encodeSem, Option.getD]

/-- C6: a structure node resolved by `getParam` carries one child per
declared field in declaration order (each field resolving to the
corresponding child), and its emitted encode fragment creates, under
the `struct` element, one `member` element per child in exactly that
order, each holding a `name` text element equal to the child's own name
followed by the field's encoding under a `value` element. -/
theorem structParam_children_order (nm : String) (fields : List (String × GoType))
    (vals : List (String × GoValue)) (p : Param) (ps : List Param)
    (h : getParam nm (GoType.strukt fields) = Except.ok p)
    (hf : getParamFields fields = Except.ok ps) :
    p = Param.structP nm (typeString (GoType.strukt fields)) ps ∧
    List.Forall₂ (fun f q => getParam f.1 f.2 = Except.ok q) fields ps ∧
    encodeSem p (GoValue.structV vals) =
      [Etree.elem "struct" "" (ps.map (fun q =>
        Etree.elem "member" ""
          [Etree.elem "name" (Param.Name q) [],
           Etree.elem "value" "" (encodeSem q (lookupField vals (Param.Name q)))]))] := by
  have h2 : Except.bind (getParamFields fields) (fun ps2 =>
      Except.ok (Param.structP nm (typeString (GoType.strukt fields)) ps2)) = Except.ok p := h
  rw [hf] at h2
  have h3 : Except.ok (Param.structP nm (typeString (GoType.strukt fields)) ps) = Except.ok p := h2
  injection h3 with h4
  subst h4
  refine ⟨rfl, getParamFields_forall fields ps hf, ?_⟩
  simp [encodeSem, encodeMembers_eq_map]

/-- C6 witness: the two-field structure `struct{a int; b bool}` at a
concrete runtime value, with both hypotheses discharged by `rfl`. -/
theorem structParam_children_order_witness :
    Param.structP "s"
        (typeString (GoType.strukt [("a", GoType.basic BasicKind.int), ("b", GoType.basic BasicKind.bool)]))
        [Param.intP "a" 0 false, Param.boolP "b"] =
      Param.structP "s"
        (typeString (GoType.strukt [("a", GoType.basic BasicKind.int), ("b", GoType.basic BasicKind.bool)]))
        [Param.intP "a" 0 false, Param.boolP "b"] ∧
    List.Forall₂ (fun f q => getParam f.1 f.2 = Except.ok q)
      [("a", GoType.basic BasicKind.int), ("b", GoType.basic BasicKind.bool)]
      [Param.intP "a" 0 false, Param.boolP "b"] ∧
    encodeSem
        (Param.structP "s"
          (typeString (GoType.strukt [("a", GoType.basic BasicKind.int), ("b", GoType.basic BasicKind.bool)]))
          [Param.intP "a" 0 false, Param.boolP "b"])
        (GoValue.structV [("a", GoValue.intV 7), ("b", GoValue.boolV true)]) =
      [Etree.elem "struct" "" ([Param.intP "a" 0 false, Param.boolP "b"].map (fun q =>
        Etree.elem "member" ""
          [Etree.elem "name" (Param.Name q) [],
           Etree.elem "value" ""
             (encodeSem q (lookupField [("a", GoValue.intV 7), ("b", GoValue.boolV true)] (Param.Name q)))]))] :=
  structParam_children_order "s"
    [("a", GoType.basic BasicKind.int), ("b", GoType.basic BasicKind.bool)]
    [("a", GoValue.intV 7), ("b", GoValue.boolV true)]
    (Param.structP "s"
      (typeString (GoType.strukt [("a", GoType.basic BasicKind.int), ("b", GoType.basic BasicKind.bool)]))
      [Param.intP "a" 0 false, Param.boolP "b"])
    [Param.intP "a" 0 false, Param.boolP "b"] rfl rfl

/-- C7: the boolean encode fragment renders text exactly `"1"` inside a
`boolean`-tagged element when the value is true and exactly `"0"` when
it is false, and on any runtime value it emits either nothing or a
`boolean` element whose text is one of exactly those two strings. -/
theorem boolParam_encode_text (nm : String) :
    (∀ b : Bool, encodeSem (Param.boolP nm) (GoValue.boolV b) =
        [Etree.elem "boolean" (if b then "1" else "0") []]) ∧
    (∀ v : GoValue, encodeSem (Param.boolP nm) v = [] ∨
        encodeSem (Param.boolP nm) v = [Etree.elem "boolean" "0" []] ∨
        encodeSem (Param.boolP nm) v = [Etree.elem "boolean" "1" []]) := by
  constructor
  · intro b
    cases b <;> simp [encodeSem]
  · intro v
    cases v with
    | boolV b =>
      cases b
      · exact Or.inr (Or.inl (by simp [encodeSem]))
      · exact Or.inr (Or.inr (by simp [encodeSem]))
    | intV i => exact Or.inl (by simp [encodeSem])
    | stringV s => exact Or.inl (by simp [encodeSem])
    | structV f => exact Or.inl (by simp [encodeSem])
    | sliceV e => exact Or.inl (by simp [encodeSem])
    | errorV m c => exact Or.inl (by simp [encodeSem])

/-- C8: resolving a raw fixed-size array shape, a named shape other than
the `error` sentinel, or any other composite/opaque shape triggers the
fatal unsupported-shape diagnostic (`Exit`, modelled as the error
outcome) and never builds or returns a codec node. -/
theorem getParam_unsupported_fatal :
    (∀ (nm : String) (len : Nat) (elem : GoType),
      getParam nm (GoType.array len elem) = Except.error "array") ∧
    (∀ nm tn : String, tn ≠ "error" →
      getParam nm (GoType.named tn) =
        Except.error "No support for named parameters. use inline definitions.") ∧
    (∀ nm desc : String,
      getParam nm (GoType.other desc) = Except.error ("not supported param: " ++ desc)) := by
  refine ⟨fun nm len elem => rfl, fun nm tn h => ?_, fun nm desc => rfl⟩
  have hb : (tn == "error") = false := beq_eq_false_iff_ne.mpr h
  simp [getParam, typeString, hb, Exit]

/-- C8 witness: a concrete named shape that is not the `error` sentinel,
with the hypothesis discharged by `decide`. -/
theorem getParam_unsupported_fatal_witness :
    ("MyType" : String) ≠ "error" ∧
    getParam "x" (GoType.named "MyType") =
      Except.error "No support for named parameters. use inline definitions." :=
  ⟨by decide, getParam_unsupported_fatal.2.1 "x" "MyType" (by decide)⟩

/-- C9: the failure-marker node's decode render returns the empty
fragment (and leaves the name counter untouched) for every choice of
sourceRef, resultVarName and errorVarName. -/
theorem errorParam_fromEtree_empty (nm t element resultvar errvar : String) (n : Nat) :
    FromEtree (Param.errorP nm t) element resultvar errvar n = ("", n) := rfl

/-- C10: when the resolver recognizes the failure marker it returns
`newErrorParam "err"`, so the node's name is the fixed string `err`
whatever the declared variable name was — unlike the other variants,
which keep the declared name (shown here for bool, string, int and
slice shapes). -/
theorem getParam_error_fixed_name (vn : String) :
    getParam vn (GoType.named "error") = Except.ok (newErrorParam "err") ∧
    Except.map Param.Name (getParam vn (GoType.named "error")) = Except.ok "err" ∧
    Except.map Param.Name (getParam vn (GoType.basic BasicKind.bool)) = Except.ok vn ∧
    Except.map Param.Name (getParam vn (GoType.basic BasicKind.string)) = Except.ok vn ∧
    Except.map Param.Name (getParam vn (GoType.basic BasicKind.int)) = Except.ok vn ∧
    Except.map Param.Name (getParam vn (GoType.slice (GoType.basic BasicKind.int))) = Except.ok vn :=
  ⟨rfl, rfl, rfl, rfl, rfl, rfl⟩
